import Mathlib

set_option maxRecDepth 8000

/-!
Verification of the polar-plant EC dashboard (`src/main.py`).

The development shallowly embeds the data/aggregation core of the source:
the file locator (`normalize`, `find_file`), the environment and growth
loaders (`load_environment_data`, `load_growth_data`), the per-site
aggregations (`environment_summary`, `growth_summary`, `best_site` via
`idxmax`), and the CSV export/parse pair used by the download expander.

Conventions:
* Text is a list of Unicode code points (`Str := List Nat`); `codes`
  converts a Lean string literal.
* Real-valued measurements are modelled as rationals (`ℚ`); a pandas NaN
  (mean of an empty column) is modelled as `none : Option ℚ`.
* Library calls are embedded by their documented behaviour on the data
  domain this program uses: `unicodedata.normalize("NFC", ·)` as the
  algorithmic Hangul canonical composition (identity on all other code
  points — the only combining sequences in this program's data are Hangul
  jamo), `pandas.read_csv` as header/column assembly with per-column
  numeric dtype inference, `pandas.to_datetime` as an ISO
  `YYYY-MM-DD[ HH:MM:SS]` parser that raises on malformed text, and
  `Series.idxmax` as the first index attaining the maximum over the
  non-NaN entries (raising when none exists).
* A Python exception escaping a modelled function is an `Except.error` /
  a dedicated error constructor.
-/

namespace PolarDash

/-- Text as a list of Unicode code points. -/
abbrev Str := List Nat

/-- Code points of a Lean string literal. -/
def codes (s : String) : Str := s.toList.map (fun c => c.toNat)

/-! ## Hangul NFC (`normalize`, main.py:32-33) -/

/-- Leading consonant jamo (U+1100..U+1112). -/
def isL (c : Nat) : Bool := 0x1100 ≤ c && c ≤ 0x1112

/-- Vowel jamo (U+1161..U+1175). -/
def isV (c : Nat) : Bool := 0x1161 ≤ c && c ≤ 0x1175

/-- Trailing consonant jamo (U+11A8..U+11C2). -/
def isT (c : Nat) : Bool := 0x11A8 ≤ c && c ≤ 0x11C2

/-- Precomposed LV-type Hangul syllable (trailing part absent). -/
def isLV (c : Nat) : Bool := 0xAC00 ≤ c && c ≤ 0xD7A3 && (c - 0xAC00) % 28 == 0

/-- Algorithmic composition of a leading and a vowel jamo into a syllable. -/
def composeLV (l v : Nat) : Nat := 0xAC00 + (l - 0x1100) * 588 + (v - 0x1161) * 28

/-- One left-to-right canonical-composition pass: `p` is the pending
previous code point, composed with the next one when they form a Hangul
L+V or LV-syllable+T pair. -/
def nfcGo : Option Nat → List Nat → List Nat
  | none, [] => []
  | some p, [] => [p]
  | none, c :: rest => nfcGo (some c) rest
  | some p, c :: rest =>
      if isL p && isV c then nfcGo (some (composeLV p c)) rest
      else if isLV p && isT c then nfcGo (some (p + (c - 0x11A7))) rest
      else p :: nfcGo (some c) rest

/-- `normalize` (main.py:32-33): `unicodedata.normalize("NFC", text)`,
modelled as Hangul canonical composition and the identity on all other
code points (the data contains no non-Hangul combining sequences). -/
def normalize (t : Str) : Str := nfcGo none t

/-! ## Substring and path suffix (Python `in`, `pathlib.Path.suffix`) -/

/-- `leadsWith kw s`: `kw` matches the leading code points of `s`. -/
def leadsWith : Str → Str → Bool
  | [], _ => true
  | _ :: _, [] => false
  | a :: ks, b :: ss => a == b && leadsWith ks ss

/-- Python's `kw in s` substring test. -/
def hasSub (kw : Str) : Str → Bool
  | [] => kw.isEmpty
  | b :: t => leadsWith kw (b :: t) || hasSub kw t

/-- `pathlib.Path.suffix`: the final `"."`-extension of a file name.
Mirrors pathlib: the last `"."` yields a suffix only when it is neither
the first nor the last character of the name. -/
def suffix (name : Str) : Str :=
  match name.reverse.findIdx? (fun c => c == 46) with
  | none => []
  | some j =>
      let i := name.length - 1 - j
      if 0 < i ∧ i < name.length - 1 then name.drop i else []

/-! ## Files and directory entries -/

/-- One harvested plant (a growth-sheet row): leaf count, stem length,
fresh weight (`잎 수(장)`, `지상부 길이(mm)`, `생중량(g)`). -/
structure GrowthRecord where
  leafCount : ℚ
  stemLength : ℚ
  freshWeight : ℚ
  deriving DecidableEq

/-- Content of a directory entry: a CSV file (header row and raw text
cells, as lexed by `pandas.read_csv`) or an XLSX workbook (one record
table per named sheet). -/
inductive FileContent where
  | csv (header : List Str) (rows : List (List Str))
  | workbook (sheets : List (Str × List GrowthRecord))
  deriving DecidableEq

/-- A directory entry as seen by `Path.iterdir()`. -/
structure FileEntry where
  name : Str
  content : FileContent
  deriving DecidableEq

/-- `find_file` (main.py:35-40): first entry whose pathlib suffix equals
`sfx` exactly and whose NFC-normalized name contains `keyword`;
`none` is the `None` sentinel. -/
def find_file (dir : List FileEntry) (keyword : Str) (sfx : Str) : Option FileEntry :=
  dir.find? (fun f => suffix f.name == sfx && hasSub keyword (normalize f.name))

/-! ## DataFrames and the environment loader (main.py:45-67) -/

/-- A DataFrame cell: raw text, an inferred number, or a parsed
date-time (year, month, day, hour, minute, second). -/
inductive Value where
  | str (s : Str)
  | num (q : ℚ)
  | dt (y mo d h mi se : Nat)
  deriving DecidableEq

/-- A DataFrame: named columns of cells, in column order. -/
abbrev DF := List (Str × List Value)

/-- ASCII decimal digit. -/
def isDigit (c : Nat) : Bool := 48 ≤ c && c ≤ 57

/-- Value of a non-empty all-digit string. -/
def digitsVal? (cs : Str) : Option Nat :=
  if cs.isEmpty then none
  else cs.foldl (fun acc c => acc.bind (fun n => if isDigit c then some (n * 10 + (c - 48)) else none)) (some 0)

/-- Split a code-point list at every occurrence of `c` (the separators
are consumed; `n` separators yield `n+1` parts). -/
def splitOnC (c : Nat) : List Nat → List (List Nat)
  | [] => [[]]
  | x :: xs =>
      if x == c then [] :: splitOnC c xs
      else
        match splitOnC c xs with
        | [] => [[x]]
        | f :: rest => (x :: f) :: rest

/-- Decimal numeral parser (optional sign, optional fractional part),
modelling pandas' numeric dtype inference for a text cell. -/
def parseDec (cs : Str) : Option ℚ :=
  let sb : ℚ × Str := match cs with
    | 45 :: t => (-1, t)
    | _ => (1, cs)
  match splitOnC 46 sb.2 with
  | [ip] => (digitsVal? ip).map (fun n => sb.1 * n)
  | [ip, fp] =>
      match digitsVal? ip, digitsVal? fp with
      | some n, some m => some (sb.1 * ((n : ℚ) + (m : ℚ) / ((10 : ℚ) ^ fp.length)))
      | _, _ => none
  | _ => none

/-- pandas column dtype inference: a column is numeric iff every cell
parses as a decimal numeral, else its cells stay text. -/
def inferCol (cells : List Str) : List Value :=
  if cells.all (fun c => (parseDec c).isSome) then
    cells.map (fun c => .num ((parseDec c).getD 0))
  else cells.map .str

/-- `pandas.read_csv` on lexed content: requires rectangular rows and
assembles named columns with dtype inference. -/
def readCsv (header : List Str) (rows : List (List Str)) : Except Unit DF :=
  if rows.all (fun r => r.length == header.length) then
    .ok ((List.range header.length).map (fun j =>
      (header.getD j [], inferCol (rows.map (fun r => r.getD j [])))))
  else .error ()

/-- ISO date-time parser (`YYYY-MM-DD HH:MM:SS` or `YYYY-MM-DD`),
modelling `pandas.to_datetime` on the loader's text timestamps;
`none` models the raised parse error. -/
def parseDT (cs : Str) : Option (Nat × Nat × Nat × Nat × Nat × Nat) :=
  if cs.length = 19 then
    match digitsVal? (cs.take 4), digitsVal? ((cs.drop 5).take 2), digitsVal? ((cs.drop 8).take 2),
          digitsVal? ((cs.drop 11).take 2), digitsVal? ((cs.drop 14).take 2), digitsVal? ((cs.drop 17).take 2) with
    | some y, some mo, some d, some h, some mi, some se =>
        if cs.getD 4 0 = 45 ∧ cs.getD 7 0 = 45 ∧ cs.getD 10 0 = 32 ∧ cs.getD 13 0 = 58 ∧ cs.getD 16 0 = 58
            ∧ 1 ≤ mo ∧ mo ≤ 12 ∧ 1 ≤ d ∧ d ≤ 31 ∧ h ≤ 23 ∧ mi ≤ 59 ∧ se ≤ 59 then
          some (y, mo, d, h, mi, se)
        else none
    | _, _, _, _, _, _ => none
  else if cs.length = 10 then
    match digitsVal? (cs.take 4), digitsVal? ((cs.drop 5).take 2), digitsVal? ((cs.drop 8).take 2) with
    | some y, some mo, some d =>
        if cs.getD 4 0 = 45 ∧ cs.getD 7 0 = 45 ∧ 1 ≤ mo ∧ mo ≤ 12 ∧ 1 ≤ d ∧ d ≤ 31 then
          some (y, mo, d, 0, 0, 0)
        else none
    | _, _, _ => none
  else none

/-- `pd.to_datetime` on one cell of the `"time"` column. -/
def coerceTime : Value → Option Value
  | .str s => (parseDT s).map (fun (y, mo, d, h, mi, se) => .dt y mo d h mi se)
  | .dt y mo d h mi se => some (.dt y mo d h mi se)
  | .num _ => none

/-- `df["time"] = series`: replace the named column in place (the
column keeps its position; an absent name would be appended). -/
def setCol (df : DF) (n : Str) (col : List Value) : DF :=
  if (df.lookup n).isSome then
    df.map (fun p => if p.1 = n then (n, col) else p)
  else df ++ [(n, col)]

/-- The per-file part of the environment loader (main.py:63-64):
`pd.read_csv` followed by `df["time"] = pd.to_datetime(df["time"])`.
Any failure (non-CSV content, ragged rows, missing `"time"` column, a
malformed timestamp) is an uncaught exception: `Except.error`. -/
def parseEnvFile (f : FileEntry) : Except Unit DF :=
  match f.content with
  | .csv header rows =>
      match readCsv header rows with
      | .error e => .error e
      | .ok df =>
          match df.lookup (codes "time") with
          | none => .error ()
          | some tcol =>
              match tcol.mapM coerceTime with
              | none => .error ()
              | some tvals => .ok (setCol df (codes "time") tvals)
  | _ => .error ()

/-- `school_map` (main.py:48-53): fixed site enumeration, display name
paired with the filename keyword. -/
def school_map : List (Str × Str) :=
  [(codes "송도고", codes "송도고"), (codes "하늘고", codes "하늘고"),
   (codes "아라고", codes "아라고"), (codes "동산고", codes "동산고")]

/-- Loop body of `load_environment_data` (main.py:58-65): per school,
a missing file is skipped (`st.error` + `continue`), a parse failure
propagates and aborts the whole load. -/
def loadEnvFrom (dir : List FileEntry) : List (Str × Str) → Except Unit (List (Str × DF))
  | [] => .ok []
  | p :: rest =>
      match find_file dir p.2 (codes ".csv") with
      | none => loadEnvFrom dir rest
      | some f =>
          match parseEnvFile f with
          | .error e => .error e
          | .ok df => (loadEnvFrom dir rest).map (fun r => (p.1, df) :: r)

/-- `load_environment_data` (main.py:45-67) over an explicit directory
listing (`Path("data")` contents). -/
def load_environment_data (dir : List FileEntry) : Except Unit (List (Str × DF)) :=
  loadEnvFrom dir school_map

/-! ## Growth loader (main.py:69-90) -/

/-- Outcome of `load_growth_data`: the fatal no-workbook signal
(`st.error` + empty dict), a loaded sheet mapping, or an uncaught
exception from `pd.ExcelFile` on non-workbook content. -/
inductive GrowthResult where
  | fatalNoData
  | ok (data : List (Str × List GrowthRecord))
  | exn
  deriving DecidableEq

/-- `load_growth_data` (main.py:69-90): first `.xlsx` entry in
iteration order wins; none at all is the fatal "no growth data" case. -/
def load_growth_data (dir : List FileEntry) : GrowthResult :=
  match dir.find? (fun f => suffix f.name == codes ".xlsx") with
  | none => .fatalNoData
  | some f =>
      match f.content with
      | .workbook sheets => .ok sheets
      | _ => .exn

/-- The mapping a caller receives: empty in the fatal case
(`return {}`). -/
def GrowthResult.mapping : GrowthResult → List (Str × List GrowthRecord)
  | .ok d => d
  | _ => []

/-- Whether the fatal "no growth data" condition was signalled. -/
def GrowthResult.isFatalNoData : GrowthResult → Bool
  | .fatalNoData => true
  | _ => false

/-! ## Aggregator (main.py:145-285) -/

/-- `Series.mean()`: arithmetic mean, `none` modelling the NaN produced
on an empty column. -/
def meanQ (l : List ℚ) : Option ℚ := if l = [] then none else some (l.sum / l.length)

/-- One environment record (a row of a site's CSV). -/
structure EnvRecord where
  time : Nat
  temperature : ℚ
  humidity : ℚ
  ph : ℚ
  ec : ℚ
  deriving DecidableEq

/-- One row of `avg_df` (main.py:174-188). -/
structure EnvSummary where
  school : Str
  mTemp : Option ℚ
  mHumi : Option ℚ
  mPh : Option ℚ
  mEc : Option ℚ
  deriving DecidableEq

/-- The `avg_env` loop (main.py:174-188): one row per site of the
mapping, holding the four column means. -/
def environment_summary (env : List (Str × List EnvRecord)) : List EnvSummary :=
  env.map (fun p =>
    ⟨p.1, meanQ (p.2.map (·.temperature)), meanQ (p.2.map (·.humidity)),
     meanQ (p.2.map (·.ph)), meanQ (p.2.map (·.ec))⟩)

/-- `ec_target` (main.py:101-106). -/
def ec_target : List (Str × ℚ) :=
  [(codes "송도고", 1), (codes "하늘고", 2), (codes "아라고", 4), (codes "동산고", 8)]

/-- One row of `ec_df` (main.py:267-279). -/
structure GrowthSummary where
  school : Str
  ecTargetVal : Option ℚ
  meanWeight : Option ℚ
  count : Nat
  deriving DecidableEq

/-- The `ec_summary` loop (main.py:267-279): school,
`ec_target.get(school)`, mean fresh weight, row count. -/
def growth_summary (growth : List (Str × List GrowthRecord)) (ecT : List (Str × ℚ)) :
    List GrowthSummary :=
  growth.map (fun p => ⟨p.1, ecT.lookup p.1, meanQ (p.2.map (·.freshWeight)), p.2.length⟩)

/-- Maximum over the non-NaN entries of a column (`none` when there is
no such entry, the case where pandas `idxmax` raises). -/
def maxVal : List (Option ℚ) → Option ℚ
  | [] => none
  | none :: xs => maxVal xs
  | some v :: xs =>
      match maxVal xs with
      | none => some v
      | some w => some (max v w)

/-- `Series.idxmax()`: index of the first entry attaining the maximum
over the non-NaN entries; `none` models the `ValueError` raised when no
such entry exists. -/
def idxmax : List (Option ℚ) → Option Nat
  | [] => none
  | none :: xs => (idxmax xs).map (· + 1)
  | some v :: xs =>
      match maxVal xs with
      | none => some 0
      | some w => if v < w then (idxmax xs).map (· + 1) else some 0

/-- The empty-input fault of the aggregator (the `ValueError` raised by
`idxmax` on an empty / all-NaN column), the spec's `EmptyInputError`. -/
inductive AggError where
  | emptyInput
  deriving DecidableEq

/-- `best_site` (main.py:281): `ec_df.loc[ec_df["평균 생중량"].idxmax()]`.
The inner `none` branch is unreachable (`idxmax` returns an in-range
index). -/
def best_site (s : List GrowthSummary) : Except AggError GrowthSummary :=
  match idxmax (s.map (·.meanWeight)) with
  | none => .error .emptyInput
  | some i =>
      match s.get? i with
      | some row => .ok row
      | none => .error .emptyInput

/-! ## CSV export (main.py:244-259) and re-parse -/

/-- Join parts with a single separator code point between them. -/
def joinWith (c : Nat) : List (List Nat) → List Nat
  | [] => []
  | [r] => r
  | r :: s :: rest => r ++ c :: joinWith c (s :: rest)

/-- Decimal digits of a natural number. -/
def natDigits (n : Nat) : Str := (Nat.toDigits 10 n).map (fun c => c.toNat)

/-- Exact rendering of a rational cell (sign, numerator, and the
denominator when it is not 1) — the model's stand-in for pandas' float
formatting. -/
def renderQ (q : ℚ) : Str :=
  (if q.num < 0 then [45] else []) ++ natDigits q.num.natAbs ++
    (if q.den = 1 then [] else 47 :: natDigits q.den)

/-- Two-digit zero-padded field. -/
def pad2 (n : Nat) : Str := if n < 10 then 48 :: natDigits n else natDigits n

/-- `YYYY-MM-DD HH:MM:SS` rendering of a date-time cell. -/
def renderDT (y mo d h mi se : Nat) : Str :=
  natDigits y ++ 45 :: pad2 mo ++ 45 :: pad2 d ++ 32 :: pad2 h ++ 58 :: pad2 mi ++ 58 :: pad2 se

/-- Text a cell contributes to the CSV byte stream. -/
def renderCell : Value → Str
  | .str s => s
  | .num q => renderQ q
  | .dt y mo d h mi se => renderDT y mo d h mi se

/-- `len(df)`: the row count of a columnar frame. -/
def nRows (df : DF) : Nat :=
  match df with
  | [] => 0
  | c :: _ => c.2.length

/-- The rows `DataFrame.to_csv(index=False)` writes: the header row of
column names, then each data row's rendered cells. -/
def dfCsvRows (df : DF) : List (List Str) :=
  (df.map (·.1)) :: (List.range (nRows df)).map (fun i =>
    df.map (fun c => renderCell (c.2.getD i (.str []))))

/-- `full_env.to_csv(buffer, index=False)` (main.py:251): fields joined
by `","` (code 44), lines by `"\n"` (code 10). -/
def to_csv (df : DF) : Str := joinWith 10 ((dfCsvRows df).map (joinWith 44))

/-- Re-parsing the exported byte stream into its table of fields
(the lexing half of `pd.read_csv`). -/
def parseCsv (s : Str) : List (List Str) := (splitOnC 10 s).map (splitOnC 44)

/-! ## Auxiliary definitions and concrete fixtures -/

instance {ε α : Type} [DecidableEq ε] [DecidableEq α] : DecidableEq (Except ε α) := fun x y =>
  match x, y with
  | .ok a, .ok b => if h : a = b then .isTrue (by rw [h]) else .isFalse (by simp [h])
  | .error a, .error b => if h : a = b then .isTrue (by rw [h]) else .isFalse (by simp [h])
  | .ok _, .error _ => .isFalse (by simp)
  | .error _, .ok _ => .isFalse (by simp)

/-- Whether the per-file load (`read_csv` + time coercion) succeeds. -/
def parseOk (f : FileEntry) : Bool :=
  match parseEnvFile f with
  | .ok _ => true
  | .error _ => false

/-- The row the environment loader's loop contributes for one
school/keyword pair: `none` when the file is missing or would fail to
parse (the latter case never reaches the result: the exception aborts
the loop first). -/
def envRowOf (dir : List FileEntry) (p : Str × Str) : Option (Str × DF) :=
  match find_file dir p.2 (codes ".csv") with
  | none => none
  | some f =>
      match parseEnvFile f with
      | .ok df => some (p.1, df)
      | .error _ => none

/-- NFD (decomposed) jamo spelling of `"송도고"`. -/
def nfdSongdo : Str := [0x1109, 0x1169, 0x11BC, 0x1103, 0x1169, 0x1100, 0x1169]

/-- A CSV entry whose name is the NFD spelling of `"송도고.csv"`. -/
def entryNFD : FileEntry := ⟨nfdSongdo ++ codes ".csv", .csv [] []⟩

/-- A CSV entry whose name is the NFC spelling of `"송도고.csv"`. -/
def entryNFC : FileEntry := ⟨codes "송도고.csv", .csv [] []⟩

/-- Header of a well-formed environment CSV. -/
def stdHeader : List Str :=
  [codes "time", codes "temperature", codes "humidity", codes "ph", codes "ec"]

/-- A well-formed environment CSV for 하늘고. -/
def fileHaneul : FileEntry :=
  ⟨codes "하늘고.csv",
   .csv stdHeader [[codes "2024-03-01 10:00:00", codes "20", codes "50", codes "6", codes "2"]]⟩

/-- A well-formed environment CSV for 아라고. -/
def fileAra : FileEntry :=
  ⟨codes "아라고.csv",
   .csv stdHeader [[codes "2024-03-01 10:00:00", codes "21", codes "51", codes "6", codes "4"]]⟩

/-- A well-formed environment CSV for 동산고. -/
def fileDongsan : FileEntry :=
  ⟨codes "동산고.csv",
   .csv stdHeader [[codes "2024-03-01 10:00:00", codes "22", codes "52", codes "6", codes "8"]]⟩

/-- A 송도고 environment CSV whose `time` cell is not a date-time. -/
def fileBadSongdo : FileEntry :=
  ⟨codes "송도고.csv",
   .csv stdHeader [[codes "banana", codes "20", codes "50", codes "6", codes "2"]]⟩

/-- A 하늘고 environment CSV whose `time` cell is not a date-time. -/
def fileBadHaneul : FileEntry :=
  ⟨codes "하늘고.csv",
   .csv stdHeader [[codes "banana", codes "20", codes "50", codes "6", codes "2"]]⟩

/-- A data directory in which 송도고's CSV is missing and the other
three sites' CSVs are present and well-formed. -/
def dirMissingSongdo : List FileEntry := [fileHaneul, fileAra, fileDongsan]

/-- The spec's tie-break example: summaries A ↦ 3.2, B ↦ 5.1, C ↦ 5.1
arise from this growth mapping (one record per site). -/
def exGrowth : List (Str × List GrowthRecord) :=
  [(codes "A", [⟨0, 0, 16/5⟩]), (codes "B", [⟨0, 0, 51/10⟩]), (codes "C", [⟨0, 0, 51/10⟩])]

/-- A small loaded frame for the CSV round-trip witness. -/
def exDF : DF :=
  [(codes "time", [.dt 2024 3 1 10 0 0]), (codes "학교", [.str (codes "송도고")])]

/-- A one-site environment mapping with one record. -/
def exEnv : List (Str × List EnvRecord) := [(codes "하늘고", [⟨0, 20, 50, 6, 2⟩])]

/-- The frame the loader stores for `fileHaneul` (the successful parse
result, extracted for use in witnesses). -/
def dfHaneul : DF :=
  match parseEnvFile fileHaneul with
  | .ok df => df
  | .error _ => []

/-- A directory holding a well-formed 하늘고 CSV and a 송도고 CSV whose
time column is malformed. -/
def dirWithBad : List FileEntry := [fileHaneul, fileBadSongdo]

/-! ## Properties of `maxVal` and `idxmax` -/

theorem maxVal_eq_none_forall {l : List (Option ℚ)} (h : maxVal l = none) :
    ∀ x ∈ l, x = none := by
  induction l with
  | nil => intro x hx; cases hx
  | cons a t ih =>
    intro x hx
    cases a with
    | none =>
      rcases List.mem_cons.mp hx with rfl | hx
      · rfl
      · exact ih (by simpa [maxVal] using h) x hx
    | some v =>
      exfalso
      cases hm : maxVal t <;> simp [maxVal, hm] at h

theorem maxVal_le (l : List (Option ℚ)) (v : ℚ) (h : maxVal l = some v) :
    ∀ (j : Nat) (w : ℚ), l.get? j = some (some w) → w ≤ v := by
  induction l generalizing v with
  | nil => intro j w hj; simp at hj
  | cons a t ih =>
    intro j w hj
    cases j with
    | zero =>
      rw [List.get?_cons_zero, Option.some.injEq] at hj
      subst hj
      cases hm : maxVal t with
      | none => simp [maxVal, hm] at h; exact le_of_eq h
      | some u => simp [maxVal, hm] at h; exact h ▸ le_max_left _ _
    | succ j =>
      rw [List.get?_cons_succ] at hj
      cases a with
      | none => exact ih v (by simpa [maxVal] using h) j w hj
      | some x =>
        cases hm : maxVal t with
        | none =>
          exfalso
          have := maxVal_eq_none_forall hm (some w) (List.get?_mem hj)
          simp at this
        | some u =>
          have hw : w ≤ u := ih u hm j w hj
          have hv : v = max x u := by simp [maxVal, hm] at h; exact h.symm
          exact hv ▸ le_trans hw (le_max_right _ _)

theorem idxmax_eq_none_iff (l : List (Option ℚ)) : idxmax l = none ↔ maxVal l = none := by
  induction l with
  | nil => simp [idxmax, maxVal]
  | cons a t ih =>
    cases a with
    | none => simpa [idxmax, maxVal, Option.map_eq_none'] using ih
    | some v =>
      cases hm : maxVal t with
      | none => simp [idxmax, maxVal, hm]
      | some w =>
        by_cases hlt : v < w <;>
          simp [idxmax, maxVal, hm, hlt, Option.map_eq_none', ih]

theorem idxmax_spec (l : List (Option ℚ)) (i : Nat) (h : idxmax l = some i) :
    ∃ v, maxVal l = some v ∧ l.get? i = some (some v) ∧
      ∀ (j : Nat) (w : ℚ), j < i → l.get? j = some (some w) → w < v := by
  induction l generalizing i with
  | nil => simp [idxmax] at h
  | cons a t ih =>
    cases a with
    | none =>
      rw [idxmax, Option.map_eq_some'] at h
      obtain ⟨i', hi', rfl⟩ := h
      obtain ⟨v, hmv, hget, hstrict⟩ := ih i' hi'
      refine ⟨v, by simpa [maxVal] using hmv, by rw [List.get?_cons_succ]; exact hget, ?_⟩
      intro j w hj hw
      cases j with
      | zero => rw [List.get?_cons_zero] at hw; simp at hw
      | succ j =>
        rw [List.get?_cons_succ] at hw
        exact hstrict j w (Nat.lt_of_succ_lt_succ hj) hw
    | some v0 =>
      cases hm : maxVal t with
      | none =>
        have hi : 0 = i := by simpa [idxmax, hm] using h
        subst hi
        refine ⟨v0, by simp [maxVal, hm], by rw [List.get?_cons_zero], ?_⟩
        intro j w hj; exact absurd hj (Nat.not_lt_zero j)
      | some w0 =>
        by_cases hlt : v0 < w0
        · have h' : ∃ i', idxmax t = some i' ∧ i' + 1 = i := by
            simpa [idxmax, hm, hlt, Option.map_eq_some'] using h
          obtain ⟨i', hi', rfl⟩ := h'
          obtain ⟨v, hmv, hget, hstrict⟩ := ih i' hi'
          rw [hm, Option.some.injEq] at hmv
          subst hmv
          have hmax : max v0 w0 = w0 := max_eq_right (le_of_lt hlt)
          refine ⟨max v0 w0, by simp [maxVal, hm], ?_, ?_⟩
          · rw [hmax, List.get?_cons_succ]; exact hget
          · intro j w hj hw
            cases j with
            | zero =>
              rw [List.get?_cons_zero, Option.some.injEq, Option.some.injEq] at hw
              rw [hmax, ← hw]; exact hlt
            | succ j =>
              rw [List.get?_cons_succ] at hw
              rw [hmax]
              exact hstrict j w (Nat.lt_of_succ_lt_succ hj) hw
        · have hi : 0 = i := by simpa [idxmax, hm, hlt] using h
          subst hi
          have hmax : max v0 w0 = v0 := max_eq_left (not_lt.mp hlt)
          refine ⟨max v0 w0, by simp [maxVal, hm], by rw [hmax, List.get?_cons_zero], ?_⟩
          intro j w hj; exact absurd hj (Nat.not_lt_zero j)

theorem idxmax_isSome_of_maxVal (l : List (Option ℚ)) (v : ℚ) (h : maxVal l = some v) :
    ∃ i, idxmax l = some i := by
  cases hi : idxmax l with
  | some i => exact ⟨i, rfl⟩
  | none => rw [(idxmax_eq_none_iff l).mp hi] at h; cases h

/-! ## Claim C1 -/

/-- C1 (amended): on growth summaries produced from a growth mapping
with at least one site owning at least one record, `best_site` returns
a summary whose mean fresh weight is defined and maximal among all
defined mean weights, and every strictly earlier summary with a defined
mean weight is strictly smaller (first occurrence wins on ties); on the
spec's example A ↦ 3.2, B ↦ 5.1, C ↦ 5.1 the result is B. -/
theorem C1_best_site_first_of_max :
    (∀ (growth : List (Str × List GrowthRecord)) (ecT : List (Str × ℚ))
        (p : Str × List GrowthRecord), p ∈ growth → p.2 ≠ [] →
        ∃ (i : Nat) (row : GrowthSummary) (v : ℚ),
          best_site (growth_summary growth ecT) = .ok row ∧
          (growth_summary growth ecT).get? i = some row ∧
          row.meanWeight = some v ∧
          (∀ (j : Nat) (w : GrowthSummary) (q : ℚ),
            (growth_summary growth ecT).get? j = some w → w.meanWeight = some q → q ≤ v) ∧
          (∀ (j : Nat) (w : GrowthSummary) (q : ℚ), j < i →
            (growth_summary growth ecT).get? j = some w → w.meanWeight = some q → q < v)) ∧
    best_site (growth_summary exGrowth []) = .ok ⟨codes "B", none, some (51/10), 1⟩ := by
  constructor
  · intro growth ecT p hp hne
    obtain ⟨k, hk⟩ := List.get?_of_mem hp
    have hsk : (growth_summary growth ecT).get? k =
        some ⟨p.1, ecT.lookup p.1, meanQ (p.2.map (·.freshWeight)), p.2.length⟩ := by
      rw [growth_summary, List.get?_map, hk]; rfl
    have hm0 : meanQ (p.2.map (·.freshWeight)) =
        some ((p.2.map (·.freshWeight)).sum / ((p.2.map (·.freshWeight)).length : ℚ)) := by
      rw [meanQ, if_neg]
      simpa using hne
    obtain ⟨m, hm⟩ : ∃ m, meanQ (p.2.map (·.freshWeight)) = some m := ⟨_, hm0⟩
    have hwsk : ((growth_summary growth ecT).map (·.meanWeight)).get? k = some (some m) := by
      rw [List.get?_map, hsk]
      simpa using hm
    cases hmv : maxVal ((growth_summary growth ecT).map (·.meanWeight)) with
    | none =>
      exfalso
      have := maxVal_eq_none_forall hmv (some m) (List.get?_mem hwsk)
      simp at this
    | some v =>
      obtain ⟨i, hi⟩ := idxmax_isSome_of_maxVal _ v hmv
      obtain ⟨v', hmv', hget, hstrict⟩ := idxmax_spec _ i hi
      rw [List.get?_map, Option.map_eq_some'] at hget
      obtain ⟨row, hrow, hrowmw⟩ := hget
      refine ⟨i, row, v', ?_, hrow, hrowmw, ?_, ?_⟩
      · have hrow' : (growth_summary growth ecT)[i]? = some row := by
          rw [← List.get?_eq_getElem?]; exact hrow
        simp [best_site, hi, hrow']
      · intro j w q hj hwq
        refine maxVal_le _ v' hmv' j q ?_
        rw [List.get?_map, hj]
        simpa using hwq
      · intro j w q hlt hj hwq
        refine hstrict j q hlt ?_
        rw [List.get?_map, hj]
        simpa using hwq
  · norm_num [best_site, growth_summary, meanQ, idxmax, maxVal, exGrowth]

/-- C1 counterexample: a non-empty growth mapping whose only site has
no records yields a summary column that is all NaN, and the original
claim's promised return does not happen — `best_site` faults (the
`idxmax` `ValueError`) instead of returning a summary. -/
theorem C1_counterexample :
    best_site (growth_summary [(codes "송도고", [])] ec_target) = .error .emptyInput := by
  decide

/-- C1 witness: the amended theorem applied to the spec's concrete
A/B/C tie-break mapping. -/
theorem C1_witness :
    ∃ (i : Nat) (row : GrowthSummary) (v : ℚ),
      best_site (growth_summary exGrowth []) = .ok row ∧
      (growth_summary exGrowth []).get? i = some row ∧
      row.meanWeight = some v ∧
      (∀ (j : Nat) (w : GrowthSummary) (q : ℚ),
        (growth_summary exGrowth []).get? j = some w → w.meanWeight = some q → q ≤ v) ∧
      (∀ (j : Nat) (w : GrowthSummary) (q : ℚ), j < i →
        (growth_summary exGrowth []).get? j = some w → w.meanWeight = some q → q < v) :=
  C1_best_site_first_of_max.1 exGrowth [] (codes "A", [⟨0, 0, 16/5⟩])
    (List.mem_cons_self _ _) (by simp)

/-! ## Claim C7 -/

/-- C7: `best_site` applied to an empty sequence of growth summaries
fails with the empty-input error — the `ValueError` raised by `idxmax`
on an empty column, the spec's `EmptyInputError` — and returns no
value. -/
theorem C7_best_site_empty_error : best_site [] = .error .emptyInput := by decide

/-! ## Claim C2 -/

/-- C2: `find_file` returns a file iff some immediate entry of the
directory has pathlib suffix exactly equal to the requested suffix and
NFC-normalized name containing the keyword as a substring; when no
entry matches it returns the `None` sentinel; in particular the NFC
keyword `"송도고"` locates a file named with either the NFC or the NFD
spelling of that text. -/
theorem C2_find_file_iff :
    (∀ (dir : List FileEntry) (kw sfx : Str),
        ((find_file dir kw sfx).isSome ↔
          ∃ f ∈ dir, (suffix f.name == sfx && hasSub kw (normalize f.name)) = true) ∧
        (find_file dir kw sfx = none ↔
          ∀ f ∈ dir, ¬ (suffix f.name == sfx && hasSub kw (normalize f.name)) = true)) ∧
    find_file [entryNFC] (codes "송도고") (codes ".csv") = some entryNFC ∧
    find_file [entryNFD] (codes "송도고") (codes ".csv") = some entryNFD := by
  refine ⟨fun dir kw sfx => ⟨List.find?_isSome, List.find?_eq_none⟩, by decide, by decide⟩

/-- C2 witness: the characterization applied to a concrete directory
and keyword. -/
theorem C2_witness : (find_file [fileHaneul] (codes "하늘고") (codes ".csv")).isSome :=
  ((C2_find_file_iff.1 [fileHaneul] (codes "하늘고") (codes ".csv")).1).mpr
    ⟨fileHaneul, by decide, by decide⟩

/-! ## Claim C9 -/

/-- C9: `find_file` normalizes only the filename, never the keyword:
the NFD-named entry is located by the NFC keyword `"송도고"`, but the
canonically equivalent NFD keyword (whose NFC form is exactly that NFC
keyword) fails to locate the same entry in the same directory. -/
theorem C9_keyword_not_normalized :
    normalize nfdSongdo = codes "송도고" ∧
    find_file [entryNFD] (codes "송도고") (codes ".csv") = some entryNFD ∧
    find_file [entryNFD] nfdSongdo (codes ".csv") = none := by
  exact ⟨by decide, by decide, by decide⟩

/-! ## Claim C3 -/

/-- C3 (amended): `environment_summary` produces exactly one entry per
site of the mapping, in order; a site with at least one record gets the
arithmetic mean of each of the four numeric columns, while a site with
an empty record sequence still gets an entry whose four means are the
NaN marker (`none`) — the NaN-valued summary does reach the output. -/
theorem C3_environment_summary_entries (env : List (Str × List EnvRecord))
    (i : Nat) (s : Str) (recs : List EnvRecord) (h : env.get? i = some (s, recs)) :
    (environment_summary env).length = env.length ∧
    ∃ e : EnvSummary, (environment_summary env).get? i = some e ∧ e.school = s ∧
      (recs = [] → e = ⟨s, none, none, none, none⟩) ∧
      (recs ≠ [] →
        e.mTemp = some ((recs.map (·.temperature)).sum / (recs.length : ℚ)) ∧
        e.mHumi = some ((recs.map (·.humidity)).sum / (recs.length : ℚ)) ∧
        e.mPh = some ((recs.map (·.ph)).sum / (recs.length : ℚ)) ∧
        e.mEc = some ((recs.map (·.ec)).sum / (recs.length : ℚ))) := by
  refine ⟨by simp [environment_summary], ?_⟩
  refine ⟨⟨s, meanQ (recs.map (·.temperature)), meanQ (recs.map (·.humidity)),
    meanQ (recs.map (·.ph)), meanQ (recs.map (·.ec))⟩, ?_, rfl, ?_, ?_⟩
  · rw [environment_summary, List.get?_map, h]; rfl
  · intro he; subst he; simp [meanQ]
  · intro hne
    have hx : ∀ f : EnvRecord → ℚ,
        meanQ (recs.map f) = some ((recs.map f).sum / (recs.length : ℚ)) := by
      intro f
      rw [meanQ, if_neg (by simpa using hne)]
      simp
    exact ⟨hx _, hx _, hx _, hx _⟩

/-- C3 counterexample: a mapping whose single site owns an empty record
sequence yields an output entry (with NaN means), not the omission the
original claim requires. -/
theorem C3_counterexample :
    environment_summary [(codes "송도고", [])] = [⟨codes "송도고", none, none, none, none⟩] ∧
    environment_summary [(codes "송도고", [])] ≠ [] := by
  exact ⟨by decide, by decide⟩

/-- C3 witness: the amended theorem applied to a concrete one-site
mapping with one record. -/
theorem C3_witness :
    (environment_summary exEnv).length = exEnv.length ∧
    ∃ e : EnvSummary, (environment_summary exEnv).get? 0 = some e ∧ e.school = codes "하늘고" ∧
      (([⟨0, 20, 50, 6, 2⟩] : List EnvRecord) = [] → e = ⟨codes "하늘고", none, none, none, none⟩) ∧
      (([⟨0, 20, 50, 6, 2⟩] : List EnvRecord) ≠ [] →
        e.mTemp = some ((([⟨0, 20, 50, 6, 2⟩] : List EnvRecord).map (·.temperature)).sum /
          (([⟨0, 20, 50, 6, 2⟩] : List EnvRecord).length : ℚ)) ∧
        e.mHumi = some ((([⟨0, 20, 50, 6, 2⟩] : List EnvRecord).map (·.humidity)).sum /
          (([⟨0, 20, 50, 6, 2⟩] : List EnvRecord).length : ℚ)) ∧
        e.mPh = some ((([⟨0, 20, 50, 6, 2⟩] : List EnvRecord).map (·.ph)).sum /
          (([⟨0, 20, 50, 6, 2⟩] : List EnvRecord).length : ℚ)) ∧
        e.mEc = some ((([⟨0, 20, 50, 6, 2⟩] : List EnvRecord).map (·.ec)).sum /
          (([⟨0, 20, 50, 6, 2⟩] : List EnvRecord).length : ℚ))) :=
  C3_environment_summary_entries exEnv 0 (codes "하늘고") [⟨0, 20, 50, 6, 2⟩] rfl

/-! ## Claim C5 -/

/-- C5: a directory containing no workbook entry (no entry with the
`.xlsx` suffix) makes the growth loader return the empty mapping and
signal the fatal "no growth data" condition — not a per-site skip —
regardless of which CSV files are present. -/
theorem C5_no_workbook_fatal (dir : List FileEntry)
    (h : ∀ f ∈ dir, ¬ (suffix f.name == codes ".xlsx") = true) :
    load_growth_data dir = .fatalNoData ∧
    (load_growth_data dir).mapping = [] ∧
    (load_growth_data dir).isFatalNoData = true := by
  have hf : dir.find? (fun f => suffix f.name == codes ".xlsx") = none :=
    List.find?_eq_none.mpr h
  rw [load_growth_data, hf]
  exact ⟨rfl, rfl, rfl⟩

/-- C5 witness: a directory holding only the three CSV files. -/
theorem C5_witness :
    load_growth_data dirMissingSongdo = .fatalNoData ∧
    (load_growth_data dirMissingSongdo).mapping = [] ∧
    (load_growth_data dirMissingSongdo).isFatalNoData = true :=
  C5_no_workbook_fatal dirMissingSongdo (by decide)

/-! ## Environment-loader lemmas -/

theorem loadEnvFrom_error_of_bad (dir : List FileEntry) (L : List (Str × Str))
    (p : Str × Str) (f : FileEntry) (hp : p ∈ L)
    (hf : find_file dir p.2 (codes ".csv") = some f) (hbad : parseOk f = false) :
    loadEnvFrom dir L = .error () := by
  induction L with
  | nil => cases hp
  | cons q rest ih =>
    rcases List.mem_cons.mp hp with rfl | hp'
    · cases hpe : parseEnvFile f with
      | error e => cases e; simp only [loadEnvFrom, hf, hpe]
      | ok df => rw [parseOk, hpe] at hbad; cases hbad
    · cases hq : find_file dir q.2 (codes ".csv") with
      | none => simp only [loadEnvFrom, hq]; exact ih hp'
      | some g =>
        cases hg : parseEnvFile g with
        | error e => cases e; simp only [loadEnvFrom, hq, hg]
        | ok df =>
          simp only [loadEnvFrom, hq, hg, ih hp']
          rfl

theorem loadEnvFrom_ok_eq (dir : List FileEntry) (L : List (Str × Str))
    (h : ∀ p ∈ L, (find_file dir p.2 (codes ".csv")).all parseOk = true) :
    loadEnvFrom dir L = .ok (L.filterMap (envRowOf dir)) := by
  induction L with
  | nil => rfl
  | cons q rest ih =>
    have hq := h q (List.mem_cons_self _ _)
    have hrest := fun p hp => h p (List.mem_cons_of_mem q hp)
    cases hf : find_file dir q.2 (codes ".csv") with
    | none =>
      have h0 : envRowOf dir q = none := by simp only [envRowOf, hf]
      simp only [loadEnvFrom, hf, List.filterMap_cons, h0]
      exact ih hrest
    | some f =>
      rw [hf, Option.all_some] at hq
      cases hpe : parseEnvFile f with
      | error e => rw [parseOk, hpe] at hq; cases hq
      | ok df =>
        have h0 : envRowOf dir q = some (q.1, df) := by simp only [envRowOf, hf, hpe]
        simp only [loadEnvFrom, hf, hpe, ih hrest, List.filterMap_cons, h0]
        rfl

theorem envRowOf_fst (dir : List FileEntry) (p : Str × Str) (pr : Str × DF)
    (h : envRowOf dir p = some pr) : pr.1 = p.1 := by
  rw [envRowOf] at h
  cases hf : find_file dir p.2 (codes ".csv") with
  | none => rw [hf] at h; cases h
  | some f =>
    simp only [hf] at h
    cases hp : parseEnvFile f with
    | ok df => simp only [hp] at h; cases h; rfl
    | error e => simp only [hp] at h; cases h

theorem lookup_filterMap_envRow_none (dir : List FileEntry) :
    ∀ (L : List (Str × Str)) (k : Str), (∀ p ∈ L, p.1 ≠ k) →
      (L.filterMap (envRowOf dir)).lookup k = none := by
  intro L
  induction L with
  | nil => intro k _; rfl
  | cons q rest ih =>
    intro k h
    rw [List.filterMap_cons]
    cases hq : envRowOf dir q with
    | none => exact ih k (fun p hp => h p (List.mem_cons_of_mem q hp))
    | some pr =>
      have h1 : pr.1 ≠ k := (envRowOf_fst dir q pr hq) ▸ h q (List.mem_cons_self _ _)
      obtain ⟨a, df⟩ := pr
      rw [List.lookup]
      have h2 : (k == a) = false := by simpa using fun he => h1 he.symm
      rw [h2]
      exact ih k (fun p hp => h p (List.mem_cons_of_mem q hp))

theorem lookup_filterMap_envRow_of_mem (dir : List FileEntry) :
    ∀ (L : List (Str × Str)) (m : Str × Str), (L.map Prod.fst).Nodup → m ∈ L →
      (envRowOf dir m = none → (L.filterMap (envRowOf dir)).lookup m.1 = none) ∧
      (∀ df, envRowOf dir m = some (m.1, df) →
        (L.filterMap (envRowOf dir)).lookup m.1 = some df) := by
  intro L
  induction L with
  | nil => intro m _ hm; cases hm
  | cons q rest ih =>
    intro m hnd hm
    rw [List.map_cons, List.nodup_cons] at hnd
    have hnotin : ∀ p ∈ rest, p.1 ≠ q.1 := by
      intro p hp he
      exact hnd.1 (he ▸ List.mem_map_of_mem Prod.fst hp)
    rcases List.mem_cons.mp hm with rfl | hm'
    · constructor
      · intro h0
        rw [List.filterMap_cons, h0]
        exact lookup_filterMap_envRow_none dir rest m.1 hnotin
      · intro df hdf
        rw [List.filterMap_cons, hdf, List.lookup]
        have : (m.1 == m.1) = true := by simp
        rw [this]
      -- the head entry has key `m.1`, so lookup succeeds immediately
    · have hqm : q.1 ≠ m.1 := fun he => hnd.1 (he ▸ List.mem_map_of_mem Prod.fst hm')
      have ihm := ih m hnd.2 hm'
      constructor
      · intro h0
        rw [List.filterMap_cons]
        cases hq : envRowOf dir q with
        | none => exact ihm.1 h0
        | some pr =>
          obtain ⟨a, df⟩ := pr
          have ha : a = q.1 := envRowOf_fst dir q (a, df) hq
          rw [List.lookup]
          have h2 : (m.1 == a) = false := by simpa using fun he => hqm (ha ▸ he.symm)
          rw [h2]
          exact ihm.1 h0
      · intro df hdf
        rw [List.filterMap_cons]
        cases hq : envRowOf dir q with
        | none => exact ihm.2 df hdf
        | some pr =>
          obtain ⟨a, df'⟩ := pr
          have ha : a = q.1 := envRowOf_fst dir q (a, df') hq
          rw [List.lookup]
          have h2 : (m.1 == a) = false := by simpa using fun he => hqm (ha ▸ he.symm)
          rw [h2]
          exact ihm.2 df hdf

/-! ## Claim C4 -/

/-- C4 (amended): when a site's CSV file is located but fails to parse
(the tabular parse or the coercion of the `time` column to a date-time
throws), the environment loader does not recover per site — the
exception propagates out of the loader, which returns no mapping at
all, rather than merely omitting that site. -/
theorem C4_parse_error_propagates (dir : List FileEntry) (p : Str × Str) (f : FileEntry)
    (hp : p ∈ school_map) (hf : find_file dir p.2 (codes ".csv") = some f)
    (hbad : parseOk f = false) :
    load_environment_data dir = .error () :=
  loadEnvFrom_error_of_bad dir school_map p f hp hf hbad

/-- C4 counterexample: a directory whose 송도고 CSV is located but has a
malformed `time` cell makes the whole load fail — the site is not
skipped and no mapping is produced, contradicting the original claim's
recoverable-per-site behaviour. -/
theorem C4_counterexample : load_environment_data [fileBadSongdo] = .error () := by decide

/-- C4 witness: the amended theorem applied to a directory where 하늘고's
file is fine but 송도고's file fails to parse. -/
theorem C4_witness : load_environment_data dirWithBad = .error () :=
  C4_parse_error_propagates dirWithBad (codes "송도고", codes "송도고") fileBadSongdo
    (by decide) (by decide) (by decide)

/-! ## Claim C6 -/

/-- C6 (amended): if one school's CSV is missing from the directory and
every located per-site CSV parses successfully, the loader returns a
mapping — no exception escapes — in which the missing school is absent
and every school whose CSV is located is present with its correctly
loaded frame. -/
theorem C6_missing_site_skipped (dir : List FileEntry) (m : Str × Str)
    (hm : m ∈ school_map)
    (hmiss : find_file dir m.2 (codes ".csv") = none)
    (hok : ∀ p ∈ school_map, (find_file dir p.2 (codes ".csv")).all parseOk = true) :
    ∃ r, load_environment_data dir = .ok r ∧
      r.lookup m.1 = none ∧
      ∀ (p : Str × Str) (f : FileEntry) (df : DF), p ∈ school_map →
        find_file dir p.2 (codes ".csv") = some f → parseEnvFile f = .ok df →
        r.lookup p.1 = some df := by
  refine ⟨school_map.filterMap (envRowOf dir), loadEnvFrom_ok_eq dir school_map hok, ?_, ?_⟩
  · exact (lookup_filterMap_envRow_of_mem dir school_map m (by decide) hm).1
      (by simp only [envRowOf, hmiss])
  · intro p f df hp hf hdf
    exact (lookup_filterMap_envRow_of_mem dir school_map p (by decide) hp).2 df
      (by simp only [envRowOf, hf, hdf])

/-- C6 counterexample: in a directory where 송도고's CSV is missing and
하늘고's present CSV has a malformed `time` cell, the loader raises
instead of returning a mapping, so the original claim's unconditional
"no exception escapes" fails. -/
theorem C6_counterexample : load_environment_data [fileBadHaneul] = .error () := by decide

/-- C6 witness: the amended theorem applied to the concrete directory
missing only 송도고's CSV. -/
theorem C6_witness :
    ∃ r, load_environment_data dirMissingSongdo = .ok r ∧
      r.lookup (codes "송도고") = none ∧
      ∀ (p : Str × Str) (f : FileEntry) (df : DF), p ∈ school_map →
        find_file dirMissingSongdo p.2 (codes ".csv") = some f → parseEnvFile f = .ok df →
        r.lookup p.1 = some df :=
  C6_missing_site_skipped dirMissingSongdo (codes "송도고", codes "송도고")
    (by decide) (by decide) (by decide)

/-! ## `setCol` lemmas and claim C10 -/

theorem lookup_map_set_ne (df : DF) (n : Str) (col : List Value) (c : Str) (hc : c ≠ n) :
    (df.map (fun p => if p.1 = n then (n, col) else p)).lookup c = df.lookup c := by
  induction df with
  | nil => rfl
  | cons p t ih =>
    obtain ⟨a, b⟩ := p
    rw [List.map_cons]
    by_cases hp : a = n
    · subst hp
      have e1 : (if ((a, b).1 = a) then (a, col) else (a, b)) = (a, col) := if_pos rfl
      rw [e1]
      have h1 : (c == a) = false := by simpa using hc
      simp only [List.lookup, h1]
      exact ih
    · have e1 : (if ((a, b).1 = n) then (n, col) else (a, b)) = (a, b) :=
        if_neg (by simpa using hp)
      rw [e1]
      by_cases hca : c = a
      · subst hca
        simp [List.lookup]
      · have h1 : (c == a) = false := by simpa using hca
        simp only [List.lookup, h1]
        exact ih

theorem lookup_append_single_ne (df : DF) (n : Str) (col : List Value) (c : Str) (hc : c ≠ n) :
    (df ++ [(n, col)]).lookup c = df.lookup c := by
  induction df with
  | nil =>
    have h1 : (c == n) = false := by simpa using hc
    simp [List.lookup, h1]
  | cons p t ih =>
    obtain ⟨a, b⟩ := p
    rw [List.cons_append]
    by_cases hca : c = a
    · subst hca
      simp [List.lookup]
    · have h1 : (c == a) = false := by simpa using hca
      simp only [List.lookup, h1]
      exact ih

theorem lookup_setCol_ne (df : DF) (n : Str) (col : List Value) (c : Str) (hc : c ≠ n) :
    (setCol df n col).lookup c = df.lookup c := by
  rw [setCol]
  split
  · exact lookup_map_set_ne df n col c hc
  · exact lookup_append_single_ne df n col c hc

/-- C10: for every site the environment loader loads successfully,
only the `time` column of the parsed table is modified (coerced to
date-times, in place); every other column of the stored frame equals
the corresponding column of the table `read_csv` parsed, unchanged. -/
theorem C10_only_time_modified (f : FileEntry) (header : List Str) (rows : List (List Str))
    (df : DF) (hc : f.content = .csv header rows) (h : parseEnvFile f = .ok df) :
    ∃ (raw : DF) (tcol tvals : List Value),
      readCsv header rows = .ok raw ∧
      raw.lookup (codes "time") = some tcol ∧
      tcol.mapM coerceTime = some tvals ∧
      df = setCol raw (codes "time") tvals ∧
      ∀ c : Str, c ≠ codes "time" → df.lookup c = raw.lookup c := by
  rw [parseEnvFile, hc] at h
  dsimp only at h
  cases hr : readCsv header rows with
  | error e => simp only [hr] at h; cases h
  | ok raw =>
    simp only [hr] at h
    cases ht : raw.lookup (codes "time") with
    | none => simp only [ht] at h; cases h
    | some tcol =>
      simp only [ht] at h
      cases hmm : tcol.mapM coerceTime with
      | none => simp only [hmm] at h; cases h
      | some tvals =>
        simp only [hmm] at h
        injection h with hdf
        refine ⟨raw, tcol, tvals, rfl, ht, hmm, hdf.symm, ?_⟩
        intro c hcne
        rw [← hdf]
        exact lookup_setCol_ne raw (codes "time") tvals c hcne

/-- C10 witness: the theorem applied to the concrete 하늘고 CSV. -/
theorem C10_witness :
    ∃ (raw : DF) (tcol tvals : List Value),
      readCsv stdHeader [[codes "2024-03-01 10:00:00", codes "20", codes "50", codes "6",
        codes "2"]] = .ok raw ∧
      raw.lookup (codes "time") = some tcol ∧
      tcol.mapM coerceTime = some tvals ∧
      dfHaneul = setCol raw (codes "time") tvals ∧
      ∀ c : Str, c ≠ codes "time" → dfHaneul.lookup c = raw.lookup c :=
  C10_only_time_modified fileHaneul stdHeader
    [[codes "2024-03-01 10:00:00", codes "20", codes "50", codes "6", codes "2"]]
    dfHaneul rfl rfl

/-! ## CSV split/join lemmas and claim C8 -/

theorem splitOnC_ne_nil (c : Nat) (l : List Nat) : splitOnC c l ≠ [] := by
  cases l with
  | nil => simp [splitOnC]
  | cons x xs =>
    simp only [splitOnC]
    split
    · simp
    · split <;> simp

theorem splitOnC_no_sep (c : Nat) (f : List Nat) (hf : c ∉ f) : splitOnC c f = [f] := by
  induction f with
  | nil => rfl
  | cons x xs ih =>
    rw [List.mem_cons, not_or] at hf
    rw [splitOnC, if_neg (by simp [Ne.symm hf.1]), ih hf.2]

theorem splitOnC_append_sep (c : Nat) (f t : List Nat) (hf : c ∉ f) :
    splitOnC c (f ++ c :: t) = f :: splitOnC c t := by
  induction f with
  | nil => rw [List.nil_append, splitOnC, if_pos (by simp)]
  | cons x xs ih =>
    rw [List.mem_cons, not_or] at hf
    rw [List.cons_append, splitOnC, if_neg (by simp [Ne.symm hf.1]), ih hf.2]

theorem not_mem_joinWith (c d : Nat) (fs : List (List Nat)) (hcd : c ≠ d)
    (h : ∀ f ∈ fs, c ∉ f) : c ∉ joinWith d fs := by
  induction fs with
  | nil => simp [joinWith]
  | cons r rest ih =>
    cases rest with
    | nil => simpa [joinWith] using h r (List.mem_cons_self _ _)
    | cons s rest' =>
      rw [joinWith]
      intro hmem
      rcases List.mem_append.mp hmem with hr | hd
      · exact h r (List.mem_cons_self _ _) hr
      · rcases List.mem_cons.mp hd with rfl | h'
        · exact hcd rfl
        · exact ih (fun f hf => h f (List.mem_cons_of_mem _ hf)) h'

theorem splitOnC_joinWith (c : Nat) (fs : List (List Nat)) (hne : fs ≠ [])
    (h : ∀ f ∈ fs, c ∉ f) : splitOnC c (joinWith c fs) = fs := by
  induction fs with
  | nil => cases hne rfl
  | cons r rest ih =>
    cases rest with
    | nil => rw [joinWith]; exact splitOnC_no_sep c r (h r (List.mem_cons_self _ _))
    | cons s rest' =>
      rw [joinWith, splitOnC_append_sep c r _ (h r (List.mem_cons_self _ _)),
        ih (by simp) (fun f hf => h f (List.mem_cons_of_mem _ hf))]

/-- C8: serializing a loaded in-memory environment table with the CSV
export and re-parsing the byte stream yields the table row for row:
whenever the rendered fields are separator-free, `parseCsv ∘ to_csv`
returns exactly the rows written, so the re-parsed table equals the
original up to the formatting of the cell values (the model's
"floating-point formatting precision"). -/
theorem C8_csv_roundtrip (df : DF) (hdf : df ≠ [])
    (h : ∀ row ∈ dfCsvRows df, ∀ fld ∈ row, 44 ∉ fld ∧ 10 ∉ fld) :
    parseCsv (to_csv df) = dfCsvRows df := by
  have hrows_ne : ∀ row ∈ dfCsvRows df, row ≠ ([] : List Str) := by
    intro row hrow
    rw [dfCsvRows] at hrow
    rcases List.mem_cons.mp hrow with rfl | hrow'
    · simpa using hdf
    · obtain ⟨i, _, rfl⟩ := List.mem_map.mp hrow'
      simpa using hdf
  have h10 : ∀ line ∈ (dfCsvRows df).map (joinWith 44), 10 ∉ line := by
    intro line hline
    obtain ⟨row, hrow, rfl⟩ := List.mem_map.mp hline
    exact not_mem_joinWith 10 44 row (by decide) (fun f hf => (h row hrow f hf).2)
  rw [to_csv, parseCsv,
    splitOnC_joinWith 10 _ (by simp [dfCsvRows]) h10, List.map_map]
  conv_rhs => rw [← List.map_id (dfCsvRows df)]
  refine List.map_congr_left ?_
  intro row hrow
  exact splitOnC_joinWith 44 row (hrows_ne row hrow) (fun f hf => (h row hrow f hf).1)

/-- C8 witness: the round trip evaluated on a concrete loaded frame
holding a date-time and a school-name column. -/
theorem C8_witness : parseCsv (to_csv exDF) = dfCsvRows exDF :=
  C8_csv_roundtrip exDF (by decide) (by decide)

end PolarDash
